import Mathlib

/-!
# Verification of the deq_stats trend-analysis scripts

Shallow embedding of the five scripts of the repository:

* `split_csv.py`        — split the master table into per-station files;
* `get_spearman.py`     — per-station Spearman correlation matrices;
* `get_trend.py`, `get_trend_allstation.py`, `get_trend_allstation_median.py`
                        — per-station, per-depth-band monthly trend pipeline
                          (clean → band → monthly aggregate → reindex +
                          time interpolation → Theil–Sen slope → Kendall tau).

Numeric cell values are modelled as exact rationals; a float `NaN` produced by
the statistics library is modelled by the dedicated value `PF.nan`.  The two
library routines whose results are irrational (the Theil–Sen confidence bounds,
which use a normal quantile, and the non-degenerate Kendall tau-b statistic and
its p-value) are taken as explicit collaborator parameters, exactly at the
call boundary the scripts use; everything the scripts themselves compute —
including the library's degenerate-input handling that the scripts rely on —
is defined concretely below.
-/

namespace DeqStats

/-! ## Calendar: proleptic Gregorian day ordinals (`pd.Timestamp.toordinal`)

A calendar month is encoded as the natural number `12 * year + (month - 1)`;
the scripts only ever use month-end dates after the monthly grouping step. -/

def isLeap (y : ℕ) : Bool :=
  (y % 4 == 0 && y % 100 != 0) || y % 400 == 0

def daysInMonth (y m : ℕ) : ℕ :=
  if m = 2 then (if isLeap y then 29 else 28)
  else if m = 4 ∨ m = 6 ∨ m = 9 ∨ m = 11 then 30
  else 31

def daysBeforeMonth (y m : ℕ) : ℕ :=
  (List.range (m - 1)).foldl (fun a i => a + daysInMonth y (i + 1)) 0

/-- Day number of year `y`, month `m`, day `d` in the proleptic Gregorian
calendar, with day 1 = January 1 of year 1 (the convention of Python's
`date.toordinal`). -/
def toOrdinal (y m d : ℕ) : ℕ :=
  365 * (y - 1) + (y - 1) / 4 - (y - 1) / 100 + (y - 1) / 400 +
    daysBeforeMonth y m + d

def monthYear (k : ℕ) : ℕ := k / 12

def monthInYear (k : ℕ) : ℕ := k % 12 + 1

/-- Ordinal day of the month-end date of encoded month `k`: the timestamps
`pd.date_range(..., freq='ME')` produces, sent through `Timestamp.toordinal`. -/
def monthEndOrd (k : ℕ) : ℕ :=
  toOrdinal (monthYear k) (monthInYear k) (daysInMonth (monthYear k) (monthInYear k))

/-! ## Library float values: rationals plus NaN -/

/-- A Python float as the scripts use it: either an exact numeric value
(idealised as a rational) or `nan`. -/
inductive PF where
  | nan : PF
  | q : ℚ → PF
deriving DecidableEq, Repr

namespace PF

def mul : PF → PF → PF
  | q a, q b => q (a * b)
  | _, _ => nan

def sub : PF → PF → PF
  | q a, q b => q (a - b)
  | _, _ => nan

/-- Python `<` on floats: any comparison with `nan` is `False`. -/
def lt : PF → PF → Bool
  | q a, q b => decide (a < b)
  | _, _ => false

end PF

/-! ## Statistics collaborators: `scipy.stats.theilslopes`, `kendalltau` -/

/-- Median as `np.median` computes it: sort ascending, take the middle element (mean of the two
middle elements for even length); the median of an empty array is `nan`. -/
def npMedian (l : List ℚ) : PF :=
  match l with
  | [] => PF.nan
  | _ =>
    let s := l.insertionSort (· ≤ ·)
    if l.length % 2 = 1 then PF.q (s.getD (l.length / 2) 0)
    else PF.q ((s.getD (l.length / 2 - 1) 0 + s.getD (l.length / 2) 0) / 2)

/-- The pairwise slopes `theilslopes` builds: for every ordered pair of points
with a positive abscissa difference, the slope of the connecting line
(`slopes = deltay[deltax > 0] / deltax[deltax > 0]`). -/
def pairwiseSlopes (y x : List ℚ) : List ℚ :=
  let pts := x.zip y
  pts.flatMap fun p =>
    pts.filterMap fun r =>
      if r.1 < p.1 then some ((p.2 - r.2) / (p.1 - r.1)) else none

/-- The Theil–Sen point estimate: the median of all pairwise slopes.  With
fewer than two distinct abscissae there are no pairs and the result is `nan`
(the library warns and takes the median of an empty array). -/
def theilMedSlope (y x : List ℚ) : PF :=
  npMedian (pairwiseSlopes y x)

/-- Intercept of `theilslopes` (default `method='separate'`):
`median(y) - medslope * median(x)`. -/
def theilIntercept (y x : List ℚ) : PF :=
  (npMedian y).sub ((theilMedSlope y x).mul (npMedian x))

/-- Number of tied pairs in a sequence (`xtie` in the library's tau
computation): for each distinct value occurring `c` times, `c * (c-1) / 2`
pairs are tied. -/
def tiePairs (l : List ℚ) : ℕ :=
  (l.dedup.map fun v => (l.count v) * (l.count v - 1) / 2).sum

/-- Embedding of `scipy.stats.kendalltau` as the scripts call it.  The degenerate handling
is the library's own: with fewer than two observations, or when either input
is constant (all pairs tied), the result is `(nan, nan)`; otherwise the tau-b
statistic and its two-sided p-value are irrational-valued and are supplied by
the collaborator `core`. -/
def kendalltau (core : List ℚ → List ℚ → ℚ × ℚ) (x y : List ℚ) : PF × PF :=
  let n := x.length
  let tot := n * (n - 1) / 2
  if tot = 0 ∨ tiePairs x = tot ∨ tiePairs y = tot then (PF.nan, PF.nan)
  else (PF.q (core x y).1, PF.q (core x y).2)

/-! ## Trend pipeline data model -/

/-- One raw row of a station table, as the loader hands it to the pipeline:
the parsed date (already reduced to its encoded calendar month; `none` is a
`NaT` from a missing or unparseable `FDT_DATE_TIME` cell), the `FDT_DEPTH`
cell and the target-variable cell (`none` = `NaN`). -/
structure Obs where
  month : Option ℕ
  depth : Option ℚ
  value : Option ℚ
deriving DecidableEq, Repr

/-- A station input file: its identifier, which of the three required columns
are present in its header, and its rows. -/
structure Station where
  id : String
  hasDateCol : Bool
  hasDepthCol : Bool
  hasValueCol : Bool
  rows : List Obs
deriving DecidableEq, Repr

/-- A row that survived `df.dropna(subset=['Date', 'FDT_DEPTH', value_col])`. -/
structure CObs where
  month : ℕ
  depth : ℚ
  value : ℚ
deriving DecidableEq, Repr

/-- The cleaning step: keep exactly the rows whose date, depth and target
value are all present. -/
def cleanRows (rows : List Obs) : List CObs :=
  rows.filterMap fun r =>
    match r.month, r.depth, r.value with
    | some m, some d, some v => some ⟨m, d, v⟩
    | _, _, _ => none

/-- The banding step:
`np.where(df['FDT_DEPTH'] <= 1, '0-1 m', '>1 m')`. -/
def bandOf (d : ℚ) : String :=
  if d ≤ 1 then "0-1 m" else ">1 m"

def bandRows (rows : List CObs) (b : String) : List CObs :=
  rows.filter fun r => bandOf r.depth = b

/-- The distinct calendar months carrying at least one observation of band
`b`, in increasing order: the keys of
`groupby(['Depth_band', pd.Grouper(key='Date', freq='ME')])` for that band.
(A month-end bin holding no observation of the band carries no aggregated
value; such months are restored as missing cells by the reindexing step and
filled by the interpolation step.) -/
def bandMonths (rows : List CObs) (b : String) : List ℕ :=
  ((bandRows rows b).map (·.month)).dedup.insertionSort (· ≤ ·)

def groupVals (rows : List CObs) (b : String) (m : ℕ) : List ℚ :=
  ((bandRows rows b).filter fun r => r.month = m).map (·.value)

def listMean (l : List ℚ) : ℚ := l.sum / l.length

/-- Median of a nonempty group (`pd.Series.median`). -/
def listMedian (l : List ℚ) : ℚ :=
  let s := l.insertionSort (· ≤ ·)
  if l.length % 2 = 1 then s.getD (l.length / 2) 0
  else (s.getD (l.length / 2 - 1) 0 + s.getD (l.length / 2) 0) / 2

/-- The monthly aggregate series of one band under aggregation policy `agg`
(`mean` in `get_trend.py` / `get_trend_allstation.py`, `median` in
`get_trend_allstation_median.py`): one `(month, aggregated value)` entry per
qualifying month, in increasing month order. -/
def monthlyAggWith (agg : List ℚ → ℚ) (rows : List CObs) (b : String) :
    List (ℕ × ℚ) :=
  (bandMonths rows b).map fun m => (m, agg (groupVals rows b m))

def monthlyAgg : List CObs → String → List (ℕ × ℚ) := monthlyAggWith listMean

def monthlyAggMed : List CObs → String → List (ℕ × ℚ) := monthlyAggWith listMedian

/-! ## Reindexing and time interpolation
(`s.reindex(pd.date_range(s.index.min(), s.index.max(), freq='ME'))
   .interpolate(method='time')`) -/

def lookupMonth (aggr : List (ℕ × ℚ)) (m : ℕ) : Option ℚ :=
  (aggr.find? fun e => e.1 = m).map (·.2)

/-- Nearest populated month strictly before `m`. -/
def prevPt (aggr : List (ℕ × ℚ)) (m : ℕ) : Option (ℕ × ℚ) :=
  (aggr.filter fun e => e.1 < m).getLast?

/-- Nearest populated month strictly after `m`. -/
def nextPt (aggr : List (ℕ × ℚ)) (m : ℕ) : Option (ℕ × ℚ) :=
  (aggr.filter fun e => m < e.1).head?

/-- Linear interpolation at month `m` between the populated points `p` and
`n`, weighted by elapsed time (differences of month-end day ordinals), which
is what `interpolate(method='time')` uses — not the list position. -/
def timeInterp (p n : ℕ × ℚ) (m : ℕ) : ℚ :=
  p.2 + (n.2 - p.2) *
    (((monthEndOrd m : ℚ) - (monthEndOrd p.1 : ℚ)) /
      ((monthEndOrd n.1 : ℚ) - (monthEndOrd p.1 : ℚ)))

/-- Value of the reindexed-and-interpolated series at month `m`: the
aggregated value where one exists, otherwise the time-weighted interpolation
between the two nearest populated months; `none` models a cell the library
would leave as `NaN` (a gap with no populated month on one side — such cells
never arise on the range the pipeline uses, see `fillMonth_isSome_of_mem`). -/
def fillMonth (aggr : List (ℕ × ℚ)) (m : ℕ) : Option ℚ :=
  match lookupMonth aggr m with
  | some v => some v
  | none =>
    match prevPt aggr m, nextPt aggr m with
    | some p, some n => some (timeInterp p n m)
    | _, _ => none

/-- The regular month grid from the band's first to last populated month
(`pd.date_range(s.index.min(), s.index.max(), freq='ME')`). -/
def seriesIdx (aggr : List (ℕ × ℚ)) : List ℕ :=
  let ms := aggr.map (·.1)
  List.range' (ms.headD 0) (ms.getLastD 0 - ms.headD 0 + 1)

/-- The interpolated series (index and optional value). -/
def interpSeries (aggr : List (ℕ × ℚ)) : List (ℕ × Option ℚ) :=
  (seriesIdx aggr).map fun m => (m, fillMonth aggr m)

/-- The value array `s.values` of the interpolated series.  The `.getD 0`
totalisation stands for a `NaN` cell and is never reached on aggregates the
pipeline produces (`fillMonth_isSome_of_mem`). -/
def interpVals (aggr : List (ℕ × ℚ)) : List ℚ :=
  (seriesIdx aggr).map fun m => (fillMonth aggr m).getD 0

/-- The abscissae `x = s.index.map(pd.Timestamp.toordinal)`. -/
def interpOrds (aggr : List (ℕ × ℚ)) : List ℚ :=
  (seriesIdx aggr).map fun m => (monthEndOrd m : ℚ)

/-! ## Per-band fit and summary row (`get_trend_allstation.py`, lines 43–78) -/

/-- The errors the scripts can raise: a pandas `KeyError` naming the required
column(s) absent from the table (`df['FDT_DATE_TIME']` on a missing date
column; `df.dropna(subset=[...])` on a missing depth or value column). -/
inductive PyError where
  | keyError : List String → PyError
deriving DecidableEq, Repr

/-- One record of the `summary` list (one per station × band that produced a
fit). -/
structure Row where
  station_id : String
  depth_band : String
  start_year : ℕ
  end_year : ℕ
  months : ℕ
  sen_slope_per_year : PF
  kendall_sig : String
deriving DecidableEq, Repr

/-- The per-band body of the loop `for band in ['0-1 m', '>1 m']` of
`get_trend_allstation.py`: skip an empty band (`if sub.empty: continue`),
otherwise build the interpolated series, fit the Theil–Sen slope over
(ordinal day, value), run `kendalltau(np.arange(len(y)), y)`, and record the
summary row.  `core` supplies the library's non-degenerate Kendall tau-b
value and two-sided p-value. -/
def fitRow (core : List ℚ → List ℚ → ℚ × ℚ) (sid : String)
    (rows : List CObs) (b : String) : Option Row :=
  let aggr := monthlyAgg rows b
  if aggr = [] then none
  else
    let y := interpVals aggr
    let x := interpOrds aggr
    let slope := theilMedSlope y x
    let kt := kendalltau core ((List.range y.length).map fun i => (i : ℚ)) y
    some { station_id := sid
           depth_band := b
           start_year := monthYear ((aggr.map (·.1)).headD 0)
           end_year := monthYear ((aggr.map (·.1)).getLastD 0)
           months := aggr.length
           sen_slope_per_year := slope.mul (PF.q 365)
           kendall_sig := if kt.2.lt (PF.q (1/20)) then "sig" else "ns" }

/-- The per-station body of `main` in `get_trend_allstation.py`: access the
date column (KeyError if absent), drop incomplete rows (KeyError if the depth
or target column is absent from the `dropna` subset), report and skip a
station left empty, otherwise emit the summary rows of the two bands.  The
result pairs the summary rows with the diagnostic log lines printed. -/
def processStation (core : List ℚ → List ℚ → ℚ × ℚ) (vcol : String)
    (st : Station) : Except PyError (List Row × List String) :=
  if st.hasDateCol = false then .error (.keyError ["FDT_DATE_TIME"])
  else
    let missing := (if st.hasDepthCol then [] else ["FDT_DEPTH"]) ++
      (if st.hasValueCol then [] else [vcol])
    if missing ≠ [] then .error (.keyError missing)
    else
      let rows := cleanRows st.rows
      if rows = [] then
        .ok ([], ["[" ++ st.id ++ "] no valid " ++ vcol ++ " data, skipping."])
      else
        .ok ((["0-1 m", ">1 m"].filterMap (fitRow core st.id rows)), [])

/-- The station loop of `main`: stations are processed in order and the
summary rows are appended.  The loop body has no exception handler, so an
error raised for one station propagates and aborts the whole run (the summary
file of line 108 is then never written); this is modelled by the `Except`
short-circuit. -/
def runMain (core : List ℚ → List ℚ → ℚ × ℚ) (vcol : String) :
    List Station → Except PyError (List Row × List String)
  | [] => .ok ([], [])
  | st :: rest =>
    match processStation core vcol st with
    | .error e => .error e
    | .ok (rs, lg) =>
      match runMain core vcol rest with
      | .error e => .error e
      | .ok (rs2, lg2) => .ok (rs ++ rs2, lg ++ lg2)

/-! ## Per-band result of `get_trend_allstation_median.py` (lines 50–81) -/

/-- The per-band result dictionary of `analyze_station`: the yearly slope,
the yearly confidence bounds `(low * 365, high * 365)`, the Kendall statistic
and p-value, and the raw daily fit. -/
structure MedRes where
  slope_yr : PF
  ci_lower : PF
  ci_upper : PF
  tau : PF
  p_val : PF
  intercept : PF
  slope : PF
deriving DecidableEq, Repr

/-- The per-band body of the loop in `analyze_station`
(`get_trend_allstation_median.py`), aggregation policy `median`.  `ciL` and
`ciH` supply the library's 95% confidence bounds of the daily Theil–Sen slope
(`low` and `high` of `theilslopes(y, x, 0.95)`), whose normal-quantile
computation is irrational-valued. -/
def fitBandMedian (core : List ℚ → List ℚ → ℚ × ℚ)
    (ciL ciH : List ℚ → List ℚ → PF) (rows : List CObs) (b : String) :
    Option MedRes :=
  let aggr := monthlyAggMed rows b
  if aggr = [] then none
  else
    let y := interpVals aggr
    let x := interpOrds aggr
    let slope := theilMedSlope y x
    let kt := kendalltau core ((List.range y.length).map fun i => (i : ℚ)) y
    some { slope_yr := slope.mul (PF.q 365)
           ci_lower := (ciL y x).mul (PF.q 365)
           ci_upper := (ciH y x).mul (PF.q 365)
           tau := kt.1
           p_val := kt.2
           intercept := theilIntercept y x
           slope := slope }

/-! ## `split_csv.py`: split the master table by station -/

/-- One row of the master table: the `FDT_STA_ID` cell (`none` = `NaN`) and
an abstract payload standing for the remaining columns. -/
structure MRow where
  sta : Option String
  payload : ℕ
deriving DecidableEq, Repr

/-- Python `str.strip()`: drop leading and trailing whitespace. -/
def pyStrip (s : String) : String :=
  ⟨((s.data.dropWhile Char.isWhitespace).reverse.dropWhile Char.isWhitespace).reverse⟩

/-- Python `str.replace(a, b)` for a single-character pattern `a` (the only
form `split_csv.py` uses): replace every occurrence. -/
def pyReplaceChar (a b : Char) (s : String) : String :=
  ⟨s.data.map fun c => if c = a then b else c⟩

/-- Filename sanitisation:
`str(sta_id).strip().replace('/', '_').replace(' ', '_')`. -/
def sanitizeId (s : String) : String :=
  pyReplaceChar ' ' '_' (pyReplaceChar '/' '_' (pyStrip s))

def outPath (s : String) : String := sanitizeId s ++ ".csv"

/-- Lexicographic comparison of character lists by code point (Python string
comparison, the order pandas sorts group keys in). -/
def charsLe : List Char → List Char → Bool
  | [], _ => true
  | _ :: _, [] => false
  | a :: as, b :: bs =>
    if a.toNat = b.toNat then charsLe as bs else decide (a.toNat < b.toNat)

def strLe (a b : String) : Bool := charsLe a.data b.data

/-- The keys of `df.groupby('FDT_STA_ID')`: the distinct non-missing station
identifiers, iterated in increasing order (pandas sorts group keys; rows with
a missing key belong to no group). -/
def groupKeys (rows : List MRow) : List String :=
  ((rows.filterMap (·.sta)).dedup).insertionSort fun a b => strLe a b = true

/-- The rows of one group, in original order. -/
def groupRows (rows : List MRow) (k : String) : List MRow :=
  rows.filter fun r => r.sta = some k

/-- One write `group.to_csv(out_path)`: write (or overwrite) one output file.  The
filesystem is an association list from path to file content; writing to an
existing path replaces its content. -/
def writeFile : List (String × List MRow) → String → List MRow →
    List (String × List MRow)
  | [], p, c => [(p, c)]
  | e :: fs, p, c => if e.1 = p then (p, c) :: fs else e :: writeFile fs p c

def readFs (fs : List (String × List MRow)) (p : String) : Option (List MRow) :=
  (fs.find? fun e => e.1 = p).map (·.2)

/-- The split loop of `split_csv.py`: one write per group, in group order. -/
def runSplit (rows : List MRow) : List (String × List MRow) :=
  (groupKeys rows).foldl (fun fs k => writeFile fs (outPath k) (groupRows rows k)) []

/-! ## `get_spearman.py`: per-station correlation matrix columns -/

/-- The configured 18-variable list. -/
def spearVars : List String :=
  ["FDT_FIELD_PH", "FDT_TEMP_CELCIUS", "DO_mg_L", "NITROGEN_mg_L",
   "AMMONIA_mg_L", "NOX_mg_L", "NITROGEN_KJELDAHL_TOTAL_00625_mg_L",
   "PHOSPHORUS_TOTAL_00665_mg_L", "PHOSPHORUS_TOTAL_ORTHOPHOSPHATE_70507_mg_L",
   "HARDNESS_TOTAL_00900_mg_L", "CHLORIDE_mg_L", "SULFATE_mg_L",
   "ECOLI", "FECAL_COLI", "CHLOROPHYLL_A_ug_L",
   "TSS_mg_L", "SECCHI_DEPTH_M", "NOx_TKN_Sum"]

/-- One column of a station file as `pd.read_csv` types it: its name and
whether its inferred dtype is numeric. -/
structure FileCol where
  name : String
  numeric : Bool
deriving DecidableEq, Repr

/-- The present configured variables:
`existing = [v for v in variables if v in df.columns]`. -/
def existingVars (cols : List FileCol) : List String :=
  spearVars.filter fun v => (cols.map (·.name)).contains v

/-- The configured variables absent from the file
(`set(variables) - set(existing)`, reported in the log line). -/
def missingVars (cols : List FileCol) : List String :=
  spearVars.filter fun v => ¬ (cols.map (·.name)).contains v

/-- Whether the column selected by name `v` has numeric dtype. -/
def colNumeric (cols : List FileCol) (v : String) : Bool :=
  ((cols.find? fun c => c.name = v).map (·.numeric)).getD false

/-- The row/column labels of
`df[existing].corr(method='spearman', numeric_only=True)`: the existing
configured variables, in configured order, restricted by `numeric_only=True`
to those of numeric dtype. -/
def corrLabels (cols : List FileCol) : List String :=
  (existingVars cols).filter fun v => colNumeric cols v

/-- The per-station body of the loop of `get_spearman.py`: the matrix labels
and the diagnostic log lines (a missing-variables message when some
configured variable is absent; no error is raised). -/
def processSpearman (sid : String) (cols : List FileCol) :
    List String × List String :=
  (corrLabels cols,
    if missingVars cols = [] then []
    else ["[" ++ sid ++ "] Skipping missing vars"])

/-! ## Concrete test fixtures -/

/-- A concrete stand-in for the library's Kendall tau-b collaborator. -/
def coreUnit : List ℚ → List ℚ → ℚ × ℚ := fun _ _ => (1, 0)

/-- A station whose shallow band has exactly one qualifying month (one row
at depth 1/2 in January 2000) and whose deep band has three consecutive
months of data. -/
def stInsuf : Station :=
  { id := "S1", hasDateCol := true, hasDepthCol := true, hasValueCol := true,
    rows := [⟨some 24000, some (1/2), some 7⟩,
             ⟨some 24000, some 2, some 7⟩,
             ⟨some 24001, some 2, some 8⟩,
             ⟨some 24002, some 2, some 9⟩] }

/-- A station file whose header lacks the configured value column. -/
def stNoCol : Station :=
  { id := "SB", hasDateCol := true, hasDepthCol := true, hasValueCol := false,
    rows := [⟨some 24000, some 1, some 7⟩] }

/-- A station file whose only row has an unparseable date, so cleaning
leaves nothing. -/
def stEmpty : Station :=
  { id := "SE", hasDateCol := true, hasDepthCol := true, hasValueCol := true,
    rows := [⟨none, some 1, some 7⟩] }

/-- NaN stand-ins for the library's confidence-bound collaborator. -/
def ciNan : List ℚ → List ℚ → PF := fun _ _ => PF.nan

/-! ## Theorems -/

/-- C1: every observation with a non-missing numeric depth is banded
"0-1 m" exactly when its depth is at most 1 and ">1 m" exactly when its
depth exceeds 1; in particular depth exactly 1 lands in "0-1 m". -/
theorem claim_C1_banding (r : CObs) :
    (bandOf r.depth = "0-1 m" ↔ r.depth ≤ 1) ∧
    (bandOf r.depth = ">1 m" ↔ 1 < r.depth) ∧
    bandOf 1 = "0-1 m" := by
  unfold bandOf
  by_cases h : r.depth ≤ 1
  · simp only [if_pos h]
    refine ⟨by simpa using h, ?_, by norm_num⟩
    constructor
    · intro hs; exact absurd hs (by decide)
    · intro hd; exact absurd h (not_le.mpr hd)
  · simp only [if_neg h]
    refine ⟨?_, by simpa using lt_of_not_le h, by norm_num⟩
    constructor
    · intro hs; exact absurd hs (by decide)
    · intro hd; exact absurd hd h

/-- C10 (amended): in `get_spearman.py`, configured variables absent from
the file are only logged, never an error, and the correlation-matrix labels
are the configured variables that are both present in the file and of
numeric dtype (the `numeric_only=True` restriction), kept in configured
order. -/
theorem claim_C10_spearman_amended (sid : String) (cols : List FileCol) :
    (∀ v, v ∈ (processSpearman sid cols).1 ↔
      v ∈ spearVars ∧ v ∈ cols.map (·.name) ∧ colNumeric cols v = true) ∧
    (processSpearman sid cols).1.Sublist spearVars ∧
    ((processSpearman sid cols).2 = [] ↔ missingVars cols = []) := by
  refine ⟨?_, ?_, ?_⟩
  · intro v
    simp only [processSpearman, corrLabels, existingVars, List.mem_filter,
      List.mem_map, List.contains_eq_any_beq, List.any_eq_true, beq_iff_eq,
      decide_eq_true_eq]
    aesop
  · exact (List.filter_sublist _).trans (List.filter_sublist _)
  · unfold processSpearman
    split_ifs with h <;> simp [h]

/-- C10 counterexample: for a file whose `ECOLI` column exists but has
non-numeric dtype, the matrix labels are not the intersection of the
configured list with the file's columns — `ECOLI` is dropped by
`numeric_only=True`. -/
theorem claim_C10_counterexample :
    corrLabels [⟨"ECOLI", false⟩, ⟨"DO_mg_L", true⟩] = ["DO_mg_L"] ∧
    existingVars [⟨"ECOLI", false⟩, ⟨"DO_mg_L", true⟩] = ["DO_mg_L", "ECOLI"] ∧
    corrLabels [⟨"ECOLI", false⟩, ⟨"DO_mg_L", true⟩] ≠
      existingVars [⟨"ECOLI", false⟩, ⟨"DO_mg_L", true⟩] := by
  refine ⟨by decide, by decide, by decide⟩

/-- Reading after a single write: the written path holds the new content,
all other paths are untouched. -/
theorem readFs_writeFile (fs : List (String × List MRow)) (p : String)
    (c : List MRow) (q : String) :
    readFs (writeFile fs p c) q = if q = p then some c else readFs fs q := by
  induction fs with
  | nil =>
    simp only [writeFile, readFs]
    by_cases h : q = p
    · subst h
      rw [List.find?_cons_of_pos _ (by simp)]
      simp
    · rw [List.find?_cons_of_neg _ (by simp [Ne.symm h]), if_neg h]
  | cons e fs ih =>
    simp only [writeFile]
    by_cases h1 : e.1 = p
    · rw [if_pos h1]
      simp only [readFs]
      by_cases h2 : q = p
      · subst h2
        rw [List.find?_cons_of_pos _ (by simp), if_pos rfl]
        simp
      · rw [List.find?_cons_of_neg _ (by simp [Ne.symm h2]),
          List.find?_cons_of_neg _
            (by simp; intro hh; exact h2 (h1.symm.trans hh).symm),
          if_neg h2]
    · rw [if_neg h1]
      simp only [readFs] at ih ⊢
      by_cases h3 : e.1 = q
      · have hqp : ¬ q = p := fun hqp => h1 (h3.trans hqp)
        rw [List.find?_cons_of_pos _ (by simp [h3]),
          List.find?_cons_of_pos _ (by simp [h3]), if_neg hqp]
      · rw [List.find?_cons_of_neg _ (by simp [h3]),
          List.find?_cons_of_neg _ (by simp [h3])]
        exact ih

/-- Reading the filesystem after the whole split loop over keys `ks`: a path
holds the group of the last key in `ks` that sanitises to it, and paths no
key sanitises to are untouched. -/
theorem readFs_split_foldl (rows : List MRow) (ks : List String)
    (fs : List (String × List MRow)) (q : String) :
    readFs (ks.foldl (fun a k => writeFile a (outPath k) (groupRows rows k)) fs) q =
      match (ks.filter fun k => outPath k = q).getLast? with
      | some k => some (groupRows rows k)
      | none => readFs fs q := by
  induction ks generalizing fs with
  | nil => simp
  | cons k ks ih =>
    rw [List.foldl_cons, ih]
    by_cases hps : outPath k = q
    · subst hps
      rw [List.filter_cons_of_pos (by simp)]
      cases hlast : (ks.filter fun x => outPath x = outPath k).getLast? with
      | some k' =>
        cases hfk : ks.filter fun x => outPath x = outPath k with
        | nil =>
          rw [hfk] at hlast
          exact absurd hlast (by simp)
        | cons a t =>
          rw [hfk] at hlast
          rw [List.getLast?_cons_cons, hlast]
      | none =>
        rw [List.getLast?_eq_none_iff.mp hlast]
        simp only [List.getLast?_singleton]
        rw [readFs_writeFile, if_pos rfl]
    · rw [List.filter_cons_of_neg (by simp [hps])]
      cases hlast : (ks.filter fun x => outPath x = q).getLast? with
      | some k' => rfl
      | none =>
        rw [readFs_writeFile, if_neg (fun h : q = outPath k => hps h.symm)]

/-- C9: in `split_csv.py`, output files are keyed by the sanitised station
identifier, so raw identifiers with the same sanitised form share one output
path and the file finally holds the group of the last such key in iteration
order (the later group overwrites the earlier); rows with a missing
`FDT_STA_ID` belong to no group and appear in no output file. -/
theorem claim_C9_split_keyed (rows : List MRow) (a b p : String) (r : MRow)
    (c : List MRow) :
    (sanitizeId a = sanitizeId b → outPath a = outPath b) ∧
    (readFs (runSplit rows) p =
      match ((groupKeys rows).filter fun k => outPath k = p).getLast? with
      | some k => some (groupRows rows k)
      | none => none) ∧
    (r ∈ rows → r.sta = none → readFs (runSplit rows) p = some c → r ∉ c) := by
  have h2 : readFs (runSplit rows) p =
      match ((groupKeys rows).filter fun k => outPath k = p).getLast? with
      | some k => some (groupRows rows k)
      | none => none := by
    unfold runSplit
    rw [readFs_split_foldl]
    cases ((groupKeys rows).filter fun k => outPath k = p).getLast? <;>
      simp [readFs]
  refine ⟨fun h => by unfold outPath; rw [h], h2, ?_⟩
  intro hr hnone hsome hmem
  rw [h2] at hsome
  cases hlast : ((groupKeys rows).filter fun k => outPath k = p).getLast? with
  | none => rw [hlast] at hsome; exact Option.noConfusion hsome
  | some k =>
    rw [hlast] at hsome
    have hc : groupRows rows k = c := Option.some.inj hsome
    rw [← hc] at hmem
    have := (List.mem_filter.mp hmem).2
    simp only [decide_eq_true_eq] at this
    rw [hnone] at this
    exact Option.noConfusion this

/-- C9 witness: two raw identifiers differing only in the sanitised
character collide; the final file holds the later group and the
missing-identifier row is in no written file. -/
theorem claim_C9_split_keyed_witness :
    outPath "A B" = outPath "A/B" ∧
    readFs (runSplit [⟨some "A B", 0⟩, ⟨some "A/B", 1⟩, ⟨none, 2⟩]) "A_B.csv" =
      some [⟨some "A/B", 1⟩] ∧
    (⟨none, 2⟩ : MRow) ∉ [(⟨some "A/B", 1⟩ : MRow)] := by
  obtain ⟨h1, h2, h3⟩ := claim_C9_split_keyed
    [⟨some "A B", 0⟩, ⟨some "A/B", 1⟩, ⟨none, 2⟩] "A B" "A/B" "A_B.csv"
    ⟨none, 2⟩ [⟨some "A/B", 1⟩]
  refine ⟨h1 (by decide), h2.trans (by decide), ?_⟩
  exact h3 (by decide) (by decide) (h2.trans (by decide))

theorem bandMonths_sorted (rows : List CObs) (b : String) :
    (bandMonths rows b).Sorted (· ≤ ·) :=
  List.sorted_insertionSort _ _

theorem bandMonths_nodup (rows : List CObs) (b : String) :
    (bandMonths rows b).Nodup :=
  (List.perm_insertionSort _ _).nodup_iff.mpr (List.nodup_dedup _)

theorem aggMonths (f : List ℚ → ℚ) (rows : List CObs) (b : String) :
    (monthlyAggWith f rows b).map Prod.fst = bandMonths rows b := by
  unfold monthlyAggWith
  rw [List.map_map]
  exact List.map_id _

theorem headD_le_of_sorted {ms : List ℕ} (hs : ms.Sorted (· ≤ ·)) {m : ℕ}
    (hm : m ∈ ms) (d : ℕ) : ms.headD d ≤ m := by
  cases ms with
  | nil => cases hm
  | cons a t =>
    rcases List.mem_cons.mp hm with rfl | h
    · exact le_refl _
    · exact List.rel_of_sorted_cons hs _ h

theorem le_getLastD_of_sorted {ms : List ℕ} (hs : ms.Sorted (· ≤ ·)) {m : ℕ}
    (hm : m ∈ ms) : ∀ d, m ≤ ms.getLastD d := by
  induction ms with
  | nil => cases hm
  | cons a t ih =>
    intro d
    cases t with
    | nil =>
      rcases List.mem_cons.mp hm with rfl | h
      · exact le_refl _
      · cases h
    | cons a2 t2 =>
      rcases List.mem_cons.mp hm with rfl | h
      · rw [List.getLastD_cons, List.getLastD_cons]
        exact List.rel_of_sorted_cons hs _ (List.getLastD_mem_cons _ _)
      · rw [List.getLastD_cons]
        exact ih hs.of_cons h a

theorem find?_map_pair {ms : List ℕ} {g : ℕ → ℚ} {m : ℕ} (hm : m ∈ ms) :
    (ms.map fun x => (x, g x)).find? (fun e => e.1 = m) = some (m, g m) := by
  induction ms with
  | nil => cases hm
  | cons a t ih =>
    by_cases ha : a = m
    · subst ha
      rw [List.map_cons, List.find?_cons_of_pos _ (by simp)]
    · rcases List.mem_cons.mp hm with rfl | h
      · exact absurd rfl ha
      · rw [List.map_cons, List.find?_cons_of_neg _ (by simp [ha])]
        exact ih h

/-- A month carrying an aggregated value keeps it after reindexing: the
aggregate is a function of the month. -/
theorem lookupMonth_agg_mem (f : List ℚ → ℚ) (rows : List CObs) (b : String)
    {m : ℕ} (hm : m ∈ bandMonths rows b) :
    lookupMonth (monthlyAggWith f rows b) m =
      some (f (groupVals rows b m)) := by
  unfold lookupMonth monthlyAggWith
  rw [find?_map_pair hm]
  rfl

theorem lookupMonth_eq_none_iff (f : List ℚ → ℚ) (rows : List CObs)
    (b : String) (m : ℕ) :
    lookupMonth (monthlyAggWith f rows b) m = none ↔ m ∉ bandMonths rows b := by
  unfold lookupMonth monthlyAggWith
  simp only [Option.map_eq_none', List.find?_eq_none, List.mem_map,
    decide_eq_true_eq, forall_exists_index, and_imp]
  constructor
  · intro h hm2
    exact h (m, f (groupVals rows b m)) m hm2 rfl rfl
  · intro h e x hx hxe hem
    exact h (by rw [← hem, ← hxe]; exact hx)

/-- A gap month strictly between the first and last populated months has a
populated month on each side, and its interpolated value is the
time-weighted interpolation between the nearest two. -/
theorem fillMonth_gap (f : List ℚ → ℚ) (rows : List CObs) (b : String)
    {fe le : ℕ × ℚ}
    (hf : (monthlyAggWith f rows b).head? = some fe)
    (hl : (monthlyAggWith f rows b).getLast? = some le)
    {m : ℕ} (h1 : fe.1 ≤ m) (h2 : m ≤ le.1)
    (hlook : lookupMonth (monthlyAggWith f rows b) m = none) :
    ∃ p n, prevPt (monthlyAggWith f rows b) m = some p ∧
      nextPt (monthlyAggWith f rows b) m = some n ∧
      fillMonth (monthlyAggWith f rows b) m = some (timeInterp p n m) := by
  have hnm : m ∉ bandMonths rows b :=
    (lookupMonth_eq_none_iff f rows b m).mp hlook
  have hfe : fe ∈ monthlyAggWith f rows b :=
    List.mem_of_mem_head? (by rw [hf]; rfl)
  have hle : le ∈ monthlyAggWith f rows b := List.mem_of_getLast?_eq_some hl
  have hfe1 : fe.1 ∈ bandMonths rows b := by
    rw [← aggMonths f rows b]
    exact List.mem_map_of_mem Prod.fst hfe
  have hle1 : le.1 ∈ bandMonths rows b := by
    rw [← aggMonths f rows b]
    exact List.mem_map_of_mem Prod.fst hle
  have hflt : fe.1 < m :=
    lt_of_le_of_ne h1 (fun hh => hnm (hh ▸ hfe1))
  have hmlt : m < le.1 :=
    lt_of_le_of_ne h2 (fun hh => hnm (hh ▸ hle1))
  have hprev : ((monthlyAggWith f rows b).filter fun e => e.1 < m) ≠ [] := by
    intro hnil
    exact (List.filter_eq_nil_iff.mp hnil) fe hfe (by simpa using hflt)
  have hnext : ((monthlyAggWith f rows b).filter fun e => m < e.1) ≠ [] := by
    intro hnil
    exact (List.filter_eq_nil_iff.mp hnil) le hle (by simpa using hmlt)
  obtain ⟨p, hp⟩ := Option.ne_none_iff_exists'.mp
    (fun hh => hprev (List.getLast?_eq_none_iff.mp hh))
  obtain ⟨n, hn⟩ := Option.ne_none_iff_exists'.mp
    (fun hh => hnext (List.head?_eq_none_iff.mp hh))
  have hp2 : prevPt (monthlyAggWith f rows b) m = some p := hp
  have hn2 : nextPt (monthlyAggWith f rows b) m = some n := hn
  refine ⟨p, n, hp2, hn2, ?_⟩
  unfold fillMonth
  rw [hlook, hp2, hn2]

/-- C3: for a depth band that survives monthly aggregation (under either
aggregation policy `f`), the interpolated series is indexed by the regular
sequence of months from the band's first to last aggregated month inclusive,
its length is the number of calendar months between the first and last
original data point inclusive, every month in the range carries a value
(populated months keep their aggregated value), and each originally missing
month is filled by linear interpolation weighted by elapsed time between the
nearest populated months. -/
theorem claim_C3_interpolation (f : List ℚ → ℚ) (rows : List CObs)
    (b : String) (fe le : ℕ × ℚ)
    (hf : (monthlyAggWith f rows b).head? = some fe)
    (hl : (monthlyAggWith f rows b).getLast? = some le) :
    ((interpSeries (monthlyAggWith f rows b)).map Prod.fst =
      List.range' fe.1 (le.1 - fe.1 + 1)) ∧
    ((interpSeries (monthlyAggWith f rows b)).length = le.1 - fe.1 + 1) ∧
    (∀ m, fe.1 ≤ m → m ≤ le.1 →
      ∃ v, fillMonth (monthlyAggWith f rows b) m = some v) ∧
    (∀ m ∈ bandMonths rows b,
      fillMonth (monthlyAggWith f rows b) m = some (f (groupVals rows b m))) ∧
    (∀ m, fe.1 ≤ m → m ≤ le.1 →
      lookupMonth (monthlyAggWith f rows b) m = none →
      ∃ p n, prevPt (monthlyAggWith f rows b) m = some p ∧
        nextPt (monthlyAggWith f rows b) m = some n ∧
        fillMonth (monthlyAggWith f rows b) m = some (timeInterp p n m)) := by
  have hidx : seriesIdx (monthlyAggWith f rows b) =
      List.range' fe.1 (le.1 - fe.1 + 1) := by
    unfold seriesIdx
    simp only [List.headD_eq_head?_getD, List.head?_map, hf,
      List.getLastD_eq_getLast?, List.getLast?_map, hl, Option.map_some',
      Option.getD_some]
  refine ⟨?_, ?_, ?_, ?_, ?_⟩
  · unfold interpSeries
    rw [List.map_map]
    rw [hidx]
    exact List.map_id _
  · unfold interpSeries
    rw [List.length_map, hidx, List.length_range']
  · intro m h1 h2
    cases hlook : lookupMonth (monthlyAggWith f rows b) m with
    | some v =>
      refine ⟨v, ?_⟩
      unfold fillMonth
      rw [hlook]
    | none =>
      obtain ⟨p, n, _, _, hfill⟩ := fillMonth_gap f rows b hf hl h1 h2 hlook
      exact ⟨timeInterp p n m, hfill⟩
  · intro m hm
    unfold fillMonth
    rw [lookupMonth_agg_mem f rows b hm]
  · intro m h1 h2 hlook
    exact fillMonth_gap f rows b hf hl h1 h2 hlook

/-- C3 witness: a shallow band observed in January and March 2000 (month
codes 24000 and 24002) yields a three-month interpolated series whose gap
month (February) is filled by time weighting: January and February 2000 are
29 days apart month-end to month-end, February and March 31 days, so the
filled value is 7 + 1 * 29/60 = 449/60 — not the positional midpoint 15/2. -/
theorem claim_C3_interpolation_witness :
    (interpSeries (monthlyAggWith listMean
      [⟨24000, 1/2, 7⟩, ⟨24002, 1/2, 8⟩] "0-1 m")).length = 3 ∧
    fillMonth (monthlyAggWith listMean
      [⟨24000, 1/2, 7⟩, ⟨24002, 1/2, 8⟩] "0-1 m") 24001 = some (449/60) := by
  have hagg : monthlyAggWith listMean
      [(⟨24000, 1/2, 7⟩ : CObs), ⟨24002, 1/2, 8⟩] "0-1 m" =
      [(24000, 7), (24002, 8)] := by
    norm_num [monthlyAggWith, bandMonths, bandRows, groupVals, listMean,
      bandOf, List.insertionSort, List.orderedInsert, List.dedup,
      List.pwFilter, List.filter]
  have h := claim_C3_interpolation listMean
    [⟨24000, 1/2, 7⟩, ⟨24002, 1/2, 8⟩] "0-1 m" (24000, 7) (24002, 8)
    (by rw [hagg]; rfl) (by rw [hagg]; rfl)
  refine ⟨by simpa using h.2.1, ?_⟩
  obtain ⟨p, n, hp, hn, hfill⟩ := h.2.2.2.2 24001 (by norm_num) (by norm_num)
    (by rw [hagg]; norm_num [lookupMonth, List.find?])
  have hpe : p = (24000, 7) := by
    have hpc : prevPt (monthlyAggWith listMean
        [(⟨24000, 1/2, 7⟩ : CObs), ⟨24002, 1/2, 8⟩] "0-1 m") 24001 =
        some ((24000 : ℕ), (7 : ℚ)) := by
      rw [hagg]; norm_num [prevPt, List.filter]
    exact Option.some.inj (hp.symm.trans hpc)
  have hne : n = (24002, 8) := by
    have hnc : nextPt (monthlyAggWith listMean
        [(⟨24000, 1/2, 7⟩ : CObs), ⟨24002, 1/2, 8⟩] "0-1 m") 24001 =
        some ((24002 : ℕ), (8 : ℚ)) := by
      rw [hagg]; norm_num [nextPt, List.filter]
    exact Option.some.inj (hn.symm.trans hnc)
  subst hpe hne
  rw [hfill]
  have e1 : monthEndOrd 24000 = 730150 := by decide
  have e2 : monthEndOrd 24001 = 730179 := by decide
  have e3 : monthEndOrd 24002 = 730210 := by decide
  norm_num [timeInterp, e1, e2, e3]

/-- C5: a station table lacking the date column, the depth column, or the
configured value column fails for that station with the missing-column error
(pandas KeyError naming the absent required columns — the spec's
ConfigurationError category): no substitute column is used and no summary
row is produced. -/
theorem claim_C5_missing_column (core : List ℚ → List ℚ → ℚ × ℚ)
    (vcol : String) (st : Station)
    (h : st.hasDateCol = false ∨ st.hasDepthCol = false ∨
      st.hasValueCol = false) :
    ∃ cols, cols ≠ [] ∧
      processStation core vcol st = .error (.keyError cols) ∧
      ∀ out, processStation core vcol st ≠ .ok out := by
  cases hdc : st.hasDateCol with
  | false =>
    refine ⟨["FDT_DATE_TIME"], by simp, ?_, ?_⟩
    · simp [processStation, hdc]
    · intro out
      simp [processStation, hdc]
  | true =>
    cases hpc : st.hasDepthCol with
    | false =>
      cases hvc : st.hasValueCol with
      | false =>
        refine ⟨["FDT_DEPTH", vcol], by simp, ?_, ?_⟩
        · simp [processStation, hdc, hpc, hvc]
        · intro out
          simp [processStation, hdc, hpc, hvc]
      | true =>
        refine ⟨["FDT_DEPTH"], by simp, ?_, ?_⟩
        · simp [processStation, hdc, hpc, hvc]
        · intro out
          simp [processStation, hdc, hpc, hvc]
    | true =>
      cases hvc : st.hasValueCol with
      | false =>
        refine ⟨[vcol], by simp, ?_, ?_⟩
        · simp [processStation, hdc, hpc, hvc]
        · intro out
          simp [processStation, hdc, hpc, hvc]
      | true =>
        rcases h with h | h | h <;> simp_all

/-- C5 witness: a station file whose header lacks the configured value
column `FDT_FIELD_PH` raises the missing-column error and yields no rows. -/
theorem claim_C5_missing_column_witness :
    ∃ cols, cols ≠ [] ∧
      processStation (fun _ _ => ((0 : ℚ), (0 : ℚ))) "FDT_FIELD_PH"
        ⟨"S9", true, true, false, [⟨some 24000, some 1, some 7⟩]⟩ =
        .error (.keyError cols) ∧
      ∀ out, processStation (fun _ _ => ((0 : ℚ), (0 : ℚ))) "FDT_FIELD_PH"
        ⟨"S9", true, true, false, [⟨some 24000, some 1, some 7⟩]⟩ ≠
        .ok out :=
  claim_C5_missing_column _ _ _ (by simp)

theorem processStation_nodata (core : List ℚ → List ℚ → ℚ × ℚ)
    (vcol : String) (st : Station) (hdc : st.hasDateCol = true)
    (hpc : st.hasDepthCol = true) (hvc : st.hasValueCol = true)
    (he : cleanRows st.rows = []) :
    processStation core vcol st =
      .ok ([], ["[" ++ st.id ++ "] no valid " ++ vcol ++
        " data, skipping."]) := by
  simp [processStation, hdc, hpc, hvc, he]

theorem processStation_missing (core : List ℚ → List ℚ → ℚ × ℚ)
    (vcol : String) (st : Station)
    (h : st.hasDateCol = false ∨ st.hasDepthCol = false ∨
      st.hasValueCol = false) :
    ∃ cols, cols ≠ [] ∧
      processStation core vcol st = .error (.keyError cols) := by
  cases hdc : st.hasDateCol with
  | false => exact ⟨["FDT_DATE_TIME"], by simp, by simp [processStation, hdc]⟩
  | true =>
    cases hpc : st.hasDepthCol with
    | false =>
      cases hvc : st.hasValueCol with
      | false =>
        exact ⟨["FDT_DEPTH", vcol], by simp,
          by simp [processStation, hdc, hpc, hvc]⟩
      | true =>
        exact ⟨["FDT_DEPTH"], by simp,
          by simp [processStation, hdc, hpc, hvc]⟩
    | true =>
      cases hvc : st.hasValueCol with
      | false =>
        exact ⟨[vcol], by simp, by simp [processStation, hdc, hpc, hvc]⟩
      | true => rcases h with h | h | h <;> simp_all

theorem processStation_total (core : List ℚ → List ℚ → ℚ × ℚ)
    (vcol : String) (st : Station) (hdc : st.hasDateCol = true)
    (hpc : st.hasDepthCol = true) (hvc : st.hasValueCol = true) :
    ∃ out, processStation core vcol st = .ok out := by
  by_cases he : cleanRows st.rows = []
  · exact ⟨_, processStation_nodata core vcol st hdc hpc hvc he⟩
  · exact ⟨(["0-1 m", ">1 m"].filterMap (fitRow core st.id (cleanRows st.rows)),
      []), by simp [processStation, hdc, hpc, hvc, he]⟩

theorem runMain_cons_ok (core : List ℚ → List ℚ → ℚ × ℚ) (vcol : String)
    (st : Station) (rest : List Station) (rs : List Row) (lg : List String)
    (hst : processStation core vcol st = .ok (rs, lg)) :
    runMain core vcol (st :: rest) =
      (runMain core vcol rest).map fun pr => (rs ++ pr.1, lg ++ pr.2) := by
  conv_lhs => rw [runMain]
  rw [hst]
  cases hrest : runMain core vcol rest with
  | error e => rfl
  | ok pr => cases pr; rfl

theorem runMain_cons_error (core : List ℚ → List ℚ → ℚ × ℚ) (vcol : String)
    (st : Station) (rest : List Station) (e : PyError)
    (hst : processStation core vcol st = .error e) :
    runMain core vcol (st :: rest) = .error e := by
  conv_lhs => rw [runMain]
  rw [hst]

theorem pairwiseSlopes_single (y x : ℚ) : pairwiseSlopes [y] [x] = [] := by
  simp [pairwiseSlopes]

theorem kendalltau_single (core : List ℚ → List ℚ → ℚ × ℚ)
    (x y : List ℚ) (hx : x.length = 1) :
    kendalltau core x y = (PF.nan, PF.nan) := by
  unfold kendalltau
  simp [hx]

/-- A band whose monthly aggregate is a single month: the interpolated
series has one point, the pairwise-slope set is empty, so the library's
median slope is `nan` (it warns instead of raising), `kendalltau` returns
`(nan, nan)`, `nan < 0.05` is false, and a summary row is still emitted. -/
theorem fitRow_single_month (core : List ℚ → List ℚ → ℚ × ℚ) (sid : String)
    (rows : List CObs) (b : String) (m : ℕ)
    (h : bandMonths rows b = [m]) :
    fitRow core sid rows b = some
      { station_id := sid, depth_band := b, start_year := monthYear m,
        end_year := monthYear m, months := 1,
        sen_slope_per_year := PF.nan, kendall_sig := "ns" } := by
  have hagg : monthlyAgg rows b = [(m, listMean (groupVals rows b m))] := by
    unfold monthlyAgg monthlyAggWith
    rw [h]
    rfl
  have hidx : seriesIdx [(m, listMean (groupVals rows b m))] = [m] := by
    simp [seriesIdx]
  have hvals : interpVals [(m, listMean (groupVals rows b m))] =
      [listMean (groupVals rows b m)] := by
    simp [interpVals, hidx, fillMonth, lookupMonth]
  have hords : interpOrds [(m, listMean (groupVals rows b m))] =
      [(monthEndOrd m : ℚ)] := by
    simp [interpOrds, hidx]
  have hslope : theilMedSlope [listMean (groupVals rows b m)]
      [(monthEndOrd m : ℚ)] = PF.nan := by
    unfold theilMedSlope
    rw [pairwiseSlopes_single]
    rfl
  unfold fitRow
  rw [hagg, if_neg (List.cons_ne_nil _ _)]
  simp only [hvals, hords, hslope, List.length_singleton]
  have hr1 : (List.range 1).map (fun i => (i : ℚ)) = [(0 : ℚ)] := rfl
  rw [hr1, kendalltau_single core [(0 : ℚ)] _ (by rfl)]
  simp [PF.mul, PF.lt]

theorem fitRow_depth_band (core : List ℚ → List ℚ → ℚ × ℚ) (sid : String)
    (rows : List CObs) (b : String) (hne : monthlyAgg rows b ≠ []) :
    (fitRow core sid rows b).map Row.depth_band = some b := by
  unfold fitRow
  rw [if_neg hne]
  rfl

theorem processStation_rows (core : List ℚ → List ℚ → ℚ × ℚ)
    (vcol : String) (st : Station) (hdc : st.hasDateCol = true)
    (hpc : st.hasDepthCol = true) (hvc : st.hasValueCol = true)
    (hne : cleanRows st.rows ≠ []) :
    processStation core vcol st =
      .ok (["0-1 m", ">1 m"].filterMap
        (fitRow core st.id (cleanRows st.rows)), []) := by
  simp [processStation, hdc, hpc, hvc, hne]

theorem stInsuf_clean : cleanRows stInsuf.rows =
    [⟨24000, 1/2, 7⟩, ⟨24000, 2, 7⟩, ⟨24001, 2, 8⟩, ⟨24002, 2, 9⟩] := rfl

theorem stInsuf_bm1 : bandMonths (cleanRows stInsuf.rows) "0-1 m" = [24000] := by
  rw [stInsuf_clean]
  norm_num [bandMonths, bandRows, bandOf, List.filter, List.dedup,
    List.insertionSort, List.orderedInsert, List.pwFilter]

theorem stInsuf_bm2 : bandMonths (cleanRows stInsuf.rows) ">1 m" =
    [24000, 24001, 24002] := by
  rw [stInsuf_clean]
  norm_num [bandMonths, bandRows, bandOf, List.filter, List.dedup,
    List.insertionSort, List.orderedInsert, List.pwFilter]

theorem stInsuf_agg1 : monthlyAgg (cleanRows stInsuf.rows) "0-1 m" =
    [(24000, listMean (groupVals (cleanRows stInsuf.rows) "0-1 m" 24000))] := by
  unfold monthlyAgg monthlyAggWith
  rw [stInsuf_bm1]
  rfl

theorem stInsuf_agg2_ne : monthlyAgg (cleanRows stInsuf.rows) ">1 m" ≠ [] := by
  unfold monthlyAgg monthlyAggWith
  rw [stInsuf_bm2]
  simp

theorem stInsuf_bands :
    (processStation coreUnit "FDT_FIELD_PH" stInsuf).map
      (fun out => out.1.map Row.depth_band) = .ok ["0-1 m", ">1 m"] := by
  have hrow1 := fitRow_single_month coreUnit stInsuf.id
    (cleanRows stInsuf.rows) "0-1 m" 24000 stInsuf_bm1
  obtain ⟨row2, hrow2⟩ : ∃ r, fitRow coreUnit stInsuf.id
      (cleanRows stInsuf.rows) ">1 m" = some r := by
    unfold fitRow
    rw [if_neg stInsuf_agg2_ne]
    exact ⟨_, rfl⟩
  have hdb2 : row2.depth_band = ">1 m" := by
    have h := fitRow_depth_band coreUnit stInsuf.id
      (cleanRows stInsuf.rows) ">1 m" stInsuf_agg2_ne
    rw [hrow2] at h
    exact Option.some.inj h
  rw [processStation_rows coreUnit "FDT_FIELD_PH" stInsuf rfl rfl rfl
    (by rw [stInsuf_clean]; simp)]
  simp [hrow1, hrow2, hdb2, Except.map]

/-- C2 counterexample: for the concrete station `stInsuf`, whose shallow
band has a single qualifying month (one interpolated point), the estimator
does not fail at all: it returns normally, emits a summary row for the
"0-1 m" band with an undefined (NaN) slope and flag "ns", and also emits
the ">1 m" row. -/
theorem claim_C2_counterexample :
    (interpVals (monthlyAgg (cleanRows stInsuf.rows) "0-1 m")).length = 1 ∧
    (processStation coreUnit "FDT_FIELD_PH" stInsuf).map
      (fun out => out.1.map Row.depth_band) = .ok ["0-1 m", ">1 m"] ∧
    (fitRow coreUnit stInsuf.id (cleanRows stInsuf.rows) "0-1 m").map
      Row.sen_slope_per_year = some PF.nan ∧
    (fitRow coreUnit stInsuf.id (cleanRows stInsuf.rows) "0-1 m").map
      Row.kendall_sig = some "ns" := by
  have hrow1 := fitRow_single_month coreUnit stInsuf.id
    (cleanRows stInsuf.rows) "0-1 m" 24000 stInsuf_bm1
  refine ⟨?_, stInsuf_bands, ?_, ?_⟩
  · rw [stInsuf_agg1]
    simp [interpVals, seriesIdx]
  · rw [hrow1]
    rfl
  · rw [hrow1]
    rfl

/-- C2 (amended): a depth band whose aggregate has a single month (hence an
interpolated series with fewer than 2 points) does not raise any error: the
Theil–Sen slope is undefined (NaN, the library only warns), the significance
flag is "ns", a summary row is still emitted for the band, and — the loop
having no failure to handle — the estimator returns normally for every
station whose required columns are present, so the other depth band is
always processed. -/
theorem claim_C2_insufficient_amended (core : List ℚ → List ℚ → ℚ × ℚ)
    (vcol sid : String) (rows : List CObs) (b : String) (m : ℕ)
    (h : bandMonths rows b = [m]) :
    (∃ row, fitRow core sid rows b = some row ∧
      row.sen_slope_per_year = PF.nan ∧ row.kendall_sig = "ns" ∧
      row.months = 1) ∧
    (∀ st : Station, st.hasDateCol = true → st.hasDepthCol = true →
      st.hasValueCol = true →
      ∃ out, processStation core vcol st = .ok out) := by
  refine ⟨⟨_, fitRow_single_month core sid rows b m h, rfl, rfl, rfl⟩, ?_⟩
  intro st hdc hpc hvc
  exact processStation_total core vcol st hdc hpc hvc

/-- C2 amended witness: the amended statement instantiated at `stInsuf`. -/
theorem claim_C2_insufficient_amended_witness :
    (∃ row, fitRow coreUnit stInsuf.id (cleanRows stInsuf.rows) "0-1 m" =
        some row ∧
      row.sen_slope_per_year = PF.nan ∧ row.kendall_sig = "ns" ∧
      row.months = 1) ∧
    (∀ st : Station, st.hasDateCol = true → st.hasDepthCol = true →
      st.hasValueCol = true →
      ∃ out, processStation coreUnit "FDT_FIELD_PH" st = .ok out) :=
  claim_C2_insufficient_amended coreUnit "FDT_FIELD_PH" stInsuf.id
    (cleanRows stInsuf.rows) "0-1 m" 24000 stInsuf_bm1

theorem runMain_stInsuf :
    (runMain coreUnit "FDT_FIELD_PH" [stInsuf]).map
      (fun pr => pr.1.map Row.depth_band) = .ok ["0-1 m", ">1 m"] := by
  obtain ⟨out, hout⟩ := processStation_total coreUnit "FDT_FIELD_PH" stInsuf
    rfl rfl rfl
  rw [runMain_cons_ok coreUnit "FDT_FIELD_PH" stInsuf [] out.1 out.2
    (by rw [hout])]
  have h := stInsuf_bands
  rw [hout] at h
  simp only [Except.map] at h ⊢
  simp only [runMain]
  simpa using h

/-- C4 counterexample: a station file missing the configured value column
aborts the whole run — the summary is never produced and the following
station (which on its own yields both band rows) is never processed. -/
theorem claim_C4_counterexample :
    runMain coreUnit "FDT_FIELD_PH" [stNoCol, stInsuf] =
      .error (.keyError ["FDT_FIELD_PH"]) ∧
    (runMain coreUnit "FDT_FIELD_PH" [stInsuf]).map
      (fun pr => pr.1.map Row.depth_band) = .ok ["0-1 m", ">1 m"] := by
  refine ⟨?_, runMain_stInsuf⟩
  exact runMain_cons_error coreUnit "FDT_FIELD_PH" stNoCol [stInsuf] _
    (by simp [processStation, stNoCol])

/-- C4 (amended): a station that cleans to empty ("no data") is only
logged and does not stop the iteration, and a station whose columns are all
present never raises; but a station lacking a required column raises an
uncaught KeyError that aborts the run, so subsequent stations are not
processed and no summary is written. -/
theorem claim_C4_continue_amended (core : List ℚ → List ℚ → ℚ × ℚ)
    (vcol : String) :
    (∀ (st : Station) (rest : List Station), st.hasDateCol = true →
      st.hasDepthCol = true → st.hasValueCol = true →
      cleanRows st.rows = [] →
      runMain core vcol (st :: rest) = (runMain core vcol rest).map
        fun pr => (pr.1,
          ("[" ++ st.id ++ "] no valid " ++ vcol ++ " data, skipping.") ::
            pr.2)) ∧
    (∀ st : Station, st.hasDateCol = true → st.hasDepthCol = true →
      st.hasValueCol = true →
      ∃ out, processStation core vcol st = .ok out) ∧
    (∀ (st : Station) (rest : List Station),
      (st.hasDateCol = false ∨ st.hasDepthCol = false ∨
        st.hasValueCol = false) →
      ∃ cols, cols ≠ [] ∧
        runMain core vcol (st :: rest) = .error (.keyError cols)) := by
  refine ⟨?_, ?_, ?_⟩
  · intro st rest hdc hpc hvc he
    rw [runMain_cons_ok core vcol st rest _ _
      (processStation_nodata core vcol st hdc hpc hvc he)]
    cases runMain core vcol rest with
    | error e => rfl
    | ok pr => simp [Except.map]
  · intro st hdc hpc hvc
    exact processStation_total core vcol st hdc hpc hvc
  · intro st rest h
    obtain ⟨cols, hcols, herr⟩ := processStation_missing core vcol st h
    exact ⟨cols, hcols, runMain_cons_error core vcol st rest _ herr⟩

/-- C4 amended witness: the three amended behaviours instantiated at
concrete stations. -/
theorem claim_C4_continue_amended_witness :
    runMain coreUnit "FDT_FIELD_PH" [stEmpty] =
      .ok ([], ["[SE] no valid FDT_FIELD_PH data, skipping."]) ∧
    (∃ out, processStation coreUnit "FDT_FIELD_PH" stEmpty = .ok out) ∧
    (∃ cols, cols ≠ [] ∧
      runMain coreUnit "FDT_FIELD_PH" [stNoCol] =
        .error (.keyError cols)) := by
  obtain ⟨h1, h2, h3⟩ := claim_C4_continue_amended coreUnit "FDT_FIELD_PH"
  refine ⟨(h1 stEmpty [] rfl rfl rfl rfl).trans (by rfl),
    h2 stEmpty rfl rfl rfl, h3 stNoCol [] (by simp [stNoCol])⟩

/-- C8: a station whose table is empty after discarding rows with missing
date, depth or value reports the "no data" diagnostic, produces no summary
row (a valid outcome, not an error), and the run continues with the
remaining stations. -/
theorem claim_C8_nodata (core : List ℚ → List ℚ → ℚ × ℚ) (vcol : String)
    (st : Station) (rest : List Station) (hdc : st.hasDateCol = true)
    (hpc : st.hasDepthCol = true) (hvc : st.hasValueCol = true)
    (he : cleanRows st.rows = []) :
    processStation core vcol st =
      .ok ([], ["[" ++ st.id ++ "] no valid " ++ vcol ++
        " data, skipping."]) ∧
    runMain core vcol (st :: rest) = (runMain core vcol rest).map
      fun pr => (pr.1,
        ("[" ++ st.id ++ "] no valid " ++ vcol ++ " data, skipping.") ::
          pr.2) := by
  refine ⟨processStation_nodata core vcol st hdc hpc hvc he, ?_⟩
  rw [runMain_cons_ok core vcol st rest _ _
    (processStation_nodata core vcol st hdc hpc hvc he)]
  cases runMain core vcol rest with
  | error e => rfl
  | ok pr => simp [Except.map]

/-- C8 witness: the no-data behaviour at the concrete station `stEmpty`. -/
theorem claim_C8_nodata_witness :
    processStation coreUnit "FDT_FIELD_PH" stEmpty =
      .ok ([], ["[SE] no valid FDT_FIELD_PH data, skipping."]) ∧
    runMain coreUnit "FDT_FIELD_PH" [stEmpty, stNoCol] =
      (runMain coreUnit "FDT_FIELD_PH" [stNoCol]).map
        fun pr => (pr.1,
          ("[SE] no valid FDT_FIELD_PH data, skipping.") :: pr.2) := by
  obtain ⟨h1, h2⟩ := claim_C8_nodata coreUnit "FDT_FIELD_PH" stEmpty
    [stNoCol] rfl rfl rfl rfl
  exact ⟨h1, h2⟩

/-- C7: the significance statistic of a surviving band is `kendalltau`
applied to the consecutive index sequence 0,1,2,… and the interpolated
values, and the reported flag is "sig" exactly when the two-sided p-value
is below 0.05, otherwise "ns". -/
theorem claim_C7_significance (core : List ℚ → List ℚ → ℚ × ℚ)
    (sid : String) (rows : List CObs) (b : String)
    (hne : monthlyAgg rows b ≠ []) :
    ∃ row, fitRow core sid rows b = some row ∧
      row.kendall_sig =
        (if (kendalltau core
            ((List.range (interpVals (monthlyAgg rows b)).length).map
              fun i => (i : ℚ))
            (interpVals (monthlyAgg rows b))).2.lt (PF.q (1/20))
          then "sig" else "ns") ∧
      (row.kendall_sig = "sig" ↔
        (kendalltau core
          ((List.range (interpVals (monthlyAgg rows b)).length).map
            fun i => (i : ℚ))
          (interpVals (monthlyAgg rows b))).2.lt (PF.q (1/20)) = true) := by
  unfold fitRow
  rw [if_neg hne]
  refine ⟨_, rfl, rfl, ?_⟩
  by_cases hlt : (kendalltau core
      ((List.range (interpVals (monthlyAgg rows b)).length).map
        fun i => (i : ℚ))
      (interpVals (monthlyAgg rows b))).2.lt (PF.q (1/20)) = true
  · simp [hlt]
  · simp only [Bool.not_eq_true] at hlt
    simp [hlt]

/-- C7 witness: the significance flag relation instantiated at the
concrete station `stInsuf`, shallow band. -/
theorem claim_C7_significance_witness :
    ∃ row, fitRow coreUnit stInsuf.id (cleanRows stInsuf.rows) "0-1 m" =
        some row ∧
      row.kendall_sig =
        (if (kendalltau coreUnit
            ((List.range (interpVals
              (monthlyAgg (cleanRows stInsuf.rows) "0-1 m")).length).map
              fun i => (i : ℚ))
            (interpVals (monthlyAgg (cleanRows stInsuf.rows) "0-1 m"))).2.lt
            (PF.q (1/20))
          then "sig" else "ns") ∧
      (row.kendall_sig = "sig" ↔
        (kendalltau coreUnit
          ((List.range (interpVals
            (monthlyAgg (cleanRows stInsuf.rows) "0-1 m")).length).map
            fun i => (i : ℚ))
          (interpVals (monthlyAgg (cleanRows stInsuf.rows) "0-1 m"))).2.lt
          (PF.q (1/20)) = true) :=
  claim_C7_significance coreUnit stInsuf.id (cleanRows stInsuf.rows)
    "0-1 m" (by rw [stInsuf_agg1]; simp)

/-- C6: for a band with at least 2 interpolated points, the reported yearly
slope and yearly confidence bounds are exactly the daily Theil–Sen slope
and daily bounds over (ordinal day, value) pairs, each multiplied by 365. -/
theorem claim_C6_yearly_scaling (core : List ℚ → List ℚ → ℚ × ℚ)
    (ciL ciH : List ℚ → List ℚ → PF) (rows : List CObs) (b : String)
    (hne : monthlyAggMed rows b ≠ [])
    (_h2 : 2 ≤ (interpVals (monthlyAggMed rows b)).length) :
    ∃ r, fitBandMedian core ciL ciH rows b = some r ∧
      r.slope = theilMedSlope (interpVals (monthlyAggMed rows b))
        (interpOrds (monthlyAggMed rows b)) ∧
      r.slope_yr = r.slope.mul (PF.q 365) ∧
      r.ci_lower = (ciL (interpVals (monthlyAggMed rows b))
        (interpOrds (monthlyAggMed rows b))).mul (PF.q 365) ∧
      r.ci_upper = (ciH (interpVals (monthlyAggMed rows b))
        (interpOrds (monthlyAggMed rows b))).mul (PF.q 365) := by
  unfold fitBandMedian
  rw [if_neg hne]
  exact ⟨_, rfl, rfl, rfl, rfl, rfl⟩

/-- C6 witness: the yearly scaling at a concrete two-month shallow band. -/
theorem claim_C6_yearly_scaling_witness :
    ∃ r, fitBandMedian coreUnit ciNan ciNan
        [⟨24000, 1/2, 7⟩, ⟨24001, 1/2, 8⟩] "0-1 m" = some r ∧
      r.slope = theilMedSlope
        (interpVals (monthlyAggMed [⟨24000, 1/2, 7⟩, ⟨24001, 1/2, 8⟩] "0-1 m"))
        (interpOrds (monthlyAggMed [⟨24000, 1/2, 7⟩, ⟨24001, 1/2, 8⟩] "0-1 m")) ∧
      r.slope_yr = r.slope.mul (PF.q 365) ∧
      r.ci_lower = (ciNan (interpVals
          (monthlyAggMed [⟨24000, 1/2, 7⟩, ⟨24001, 1/2, 8⟩] "0-1 m"))
        (interpOrds (monthlyAggMed [⟨24000, 1/2, 7⟩, ⟨24001, 1/2, 8⟩]
          "0-1 m"))).mul (PF.q 365) ∧
      r.ci_upper = (ciNan (interpVals
          (monthlyAggMed [⟨24000, 1/2, 7⟩, ⟨24001, 1/2, 8⟩] "0-1 m"))
        (interpOrds (monthlyAggMed [⟨24000, 1/2, 7⟩, ⟨24001, 1/2, 8⟩]
          "0-1 m"))).mul (PF.q 365) := by
  have hbm : bandMonths [(⟨24000, 1/2, 7⟩ : CObs), ⟨24001, 1/2, 8⟩] "0-1 m" =
      [24000, 24001] := by
    norm_num [bandMonths, bandRows, bandOf, List.filter, List.dedup,
      List.insertionSort, List.orderedInsert, List.pwFilter]
  have hagg : monthlyAggMed [(⟨24000, 1/2, 7⟩ : CObs), ⟨24001, 1/2, 8⟩]
      "0-1 m" = [(24000, listMedian (groupVals
        [(⟨24000, 1/2, 7⟩ : CObs), ⟨24001, 1/2, 8⟩] "0-1 m" 24000)),
      (24001, listMedian (groupVals
        [(⟨24000, 1/2, 7⟩ : CObs), ⟨24001, 1/2, 8⟩] "0-1 m" 24001))] := by
    unfold monthlyAggMed monthlyAggWith
    rw [hbm]
    rfl
  refine claim_C6_yearly_scaling coreUnit ciNan ciNan _ "0-1 m"
    (by rw [hagg]; simp) ?_
  rw [hagg]
  simp [interpVals, seriesIdx]

end DeqStats
